import Mathlib

/-!
Verification of `src/public/js/physicalweb-presentationmechanism.js`
(mediascape physical-web presentation mechanism adapter).

The file shallowly embeds the adapter: outbound XMLHttpRequests become
explicit `Request` values, promises become `Settlement` values computed
from the executor actions or the network outcome, and the JavaScript
string primitives used by the source (`encodeURIComponent`, the
`application/x-www-form-urlencoded` body format, `String.indexOf`) are
modelled over Lean `String`/`List Char`.
-/

/-! ## Percent encoding (JavaScript `encodeURIComponent`)

`encodeURIComponent` leaves the unreserved characters
`A-Z a-z 0-9 - _ . ! ~ * ' ( )` as-is and replaces every other character
by the percent-encoding of its UTF-8 bytes with uppercase hex digits.
Since every unreserved character is a single ASCII byte, this is the
byte-wise encoding of the string's UTF-8 byte sequence where a byte is
kept literal exactly when it is an unreserved ASCII byte. -/

/-- Uppercase hexadecimal digit for a value below 16. -/
def hexDigitChar (n : Nat) : Char :=
  if n < 10 then Char.ofNat (48 + n) else Char.ofNat (55 + n)

/-- Value of a hexadecimal digit character (upper or lower case). -/
def hexVal (c : Char) : Option Nat :=
  if 48 ≤ c.toNat ∧ c.toNat ≤ 57 then some (c.toNat - 48)
  else if 65 ≤ c.toNat ∧ c.toNat ≤ 70 then some (c.toNat - 55)
  else if 97 ≤ c.toNat ∧ c.toNat ≤ 102 then some (c.toNat - 87)
  else none

/-- Bytes kept literal by `encodeURIComponent`: ASCII alphanumerics and
`- _ . ! ~ * ' ( )`. -/
def isUnreservedByte (b : Nat) : Bool :=
  (65 ≤ b && b ≤ 90) || (97 ≤ b && b ≤ 122) || (48 ≤ b && b ≤ 57) ||
  b == 45 || b == 95 || b == 46 || b == 33 || b == 126 ||
  b == 42 || b == 39 || b == 40 || b == 41

/-- UTF-8 byte sequence of a Unicode scalar value. -/
def utf8EncodeChar (n : Nat) : List Nat :=
  if n < 128 then [n]
  else if n < 2048 then [192 + n / 64, 128 + n % 64]
  else if n < 65536 then [224 + n / 4096, 128 + n / 64 % 64, 128 + n % 64]
  else [240 + n / 262144, 128 + n / 4096 % 64, 128 + n / 64 % 64, 128 + n % 64]

/-- Encoding of one byte: literal when unreserved, `%XY` otherwise. -/
def encByte (b : Nat) : List Char :=
  if isUnreservedByte b then [Char.ofNat b]
  else ['%', hexDigitChar (b / 16), hexDigitChar (b % 16)]

/-- UTF-8 byte sequence of a character list. -/
def utf8Bytes : List Char → List Nat
  | [] => []
  | c :: cs => utf8EncodeChar c.toNat ++ utf8Bytes cs

/-- Byte-wise percent encoding of a byte list. -/
def encodeBytes : List Nat → List Char
  | [] => []
  | b :: bs => encByte b ++ encodeBytes bs

/-- JavaScript `encodeURIComponent`. -/
def encodeURIComponent (s : String) : String :=
  String.mk (encodeBytes (utf8Bytes s.data))

/-! ## Decoding (used to state what a form-encoded body "decodes to") -/

/-- Decode a single UTF-8 sequence from the front of a byte list,
returning the scalar value and the remaining bytes. -/
def decodeOne : List Nat → Option (Nat × List Nat)
  | [] => none
  | b0 :: rest =>
    if b0 < 128 then some (b0, rest)
    else if b0 < 192 then none
    else if b0 < 224 then decodeCont1 b0 rest
    else if b0 < 240 then decodeCont2 b0 rest
    else if b0 < 248 then decodeCont3 b0 rest
    else none
where
  decodeCont1 (b0 : Nat) : List Nat → Option (Nat × List Nat)
    | b1 :: r =>
      if 128 ≤ b1 ∧ b1 < 192 then some ((b0 - 192) * 64 + (b1 - 128), r) else none
    | [] => none
  decodeCont2 (b0 : Nat) : List Nat → Option (Nat × List Nat)
    | b1 :: b2 :: r =>
      if (128 ≤ b1 ∧ b1 < 192) ∧ (128 ≤ b2 ∧ b2 < 192) then
        some ((b0 - 224) * 4096 + (b1 - 128) * 64 + (b2 - 128), r)
      else none
    | _ => none
  decodeCont3 (b0 : Nat) : List Nat → Option (Nat × List Nat)
    | b1 :: b2 :: b3 :: r =>
      if (128 ≤ b1 ∧ b1 < 192) ∧ (128 ≤ b2 ∧ b2 < 192) ∧ (128 ≤ b3 ∧ b3 < 192) then
        some ((b0 - 240) * 262144 + (b1 - 128) * 4096 + (b2 - 128) * 64 + (b3 - 128), r)
      else none
    | _ => none

/-- Fuelled UTF-8 decoding of a byte list into characters. -/
def utf8DecodeFuel : Nat → List Nat → Option (List Char)
  | _, [] => some []
  | 0, _ :: _ => none
  | fuel + 1, b :: rest =>
    match decodeOne (b :: rest) with
    | some (n, r) => (utf8DecodeFuel fuel r).map (fun cs => Char.ofNat n :: cs)
    | none => none

/-- UTF-8 decoding of a byte list into characters. -/
def utf8DecodeBytes (l : List Nat) : Option (List Char) :=
  utf8DecodeFuel l.length l

/-- Read two hexadecimal digit characters as one byte. -/
def readHexPair : List Char → Option (Nat × List Char)
  | h :: lo :: rest =>
    (match hexVal h, hexVal lo with
     | some hv, some lv => some (16 * hv + lv, rest)
     | _, _ => none)
  | _ => none

/-- Fuelled percent-decoding into bytes: `%XY` becomes the byte `XY`,
any other character contributes its UTF-8 bytes. -/
def percentDecodeFuel : Nat → List Char → Option (List Nat)
  | _, [] => some []
  | 0, _ :: _ => none
  | fuel + 1, c :: rest =>
    if c = '%' then
      match readHexPair rest with
      | some (b, rest2) => (percentDecodeFuel fuel rest2).map (fun bs => b :: bs)
      | none => none
    else
      (percentDecodeFuel fuel rest).map (fun bs => utf8EncodeChar c.toNat ++ bs)

/-- Percent-decoding of a character list into bytes. -/
def percentDecodeBytes (l : List Char) : Option (List Nat) :=
  percentDecodeFuel l.length l

/-- Percent-decoding of a string (inverse of `encodeURIComponent`). -/
def percentDecode (s : String) : Option String :=
  match percentDecodeBytes s.data with
  | none => none
  | some bs =>
    match utf8DecodeBytes bs with
    | none => none
    | some cs => some (String.mk cs)

/-- In `application/x-www-form-urlencoded` payloads a `+` denotes a space. -/
def plusToSpace (c : Char) : Char :=
  if c = '+' then ' ' else c

/-- Decoding of one form-encoded key or value. -/
def formValueDecode (s : String) : Option String :=
  percentDecode (String.mk (s.data.map plusToSpace))

/-- Split a character list on `&` separators. -/
def splitAmp : List Char → List (List Char)
  | [] => [[]]
  | c :: rest =>
    if c = '&' then [] :: splitAmp rest
    else
      match splitAmp rest with
      | [] => [[c]]
      | g :: gs => (c :: g) :: gs

/-- Split a character list at its first `=`. -/
def splitFirstEq : List Char → Option (List Char × List Char)
  | [] => none
  | c :: rest =>
    if c = '=' then some ([], rest)
    else
      match splitFirstEq rest with
      | none => none
      | some (k, v) => some (c :: k, v)

/-- Decode one `key=value` group of a form-encoded body. -/
def parsePair (g : List Char) : Option (String × String) :=
  match splitFirstEq g with
  | none => none
  | some (k, v) =>
    match formValueDecode (String.mk k), formValueDecode (String.mk v) with
    | some key, some val => some (key, val)
    | _, _ => none

/-- Decode a list of `key=value` groups. -/
def parsePairs : List (List Char) → Option (List (String × String))
  | [] => some []
  | g :: gs =>
    match parsePair g, parsePairs gs with
    | some p, some ps => some (p :: ps)
    | _, _ => none

/-- Decode an `application/x-www-form-urlencoded` body into its
key/value pairs. -/
def formDecode (body : String) : Option (List (String × String)) :=
  parsePairs (splitAmp body.data)

/-! ## The adapter model

Shallow embedding of the classes defined in
`physicalweb-presentationmechanism.js`. Promises are modelled by the
`Settlement` they reach; an outbound `XMLHttpRequest` is modelled by the
`Request` value it sends. -/

/-- One outbound HTTP request as configured by
`xhr.open`/`xhr.setRequestHeader`/`xhr.send` in the source. -/
structure Request where
  method : String
  url : String
  contentTypeHeader : String
  body : String
deriving DecidableEq

/-- The fixed backend endpoint used by both `navigate` and `terminate`. -/
def beaconEndpoint : String := "http://localhost:3000/api/beacon"

/-- The content type set on both requests. -/
def formContentType : String := "application/x-www-form-urlencoded"

/-- Body sent by `navigate`:
`'action=start&url=' + encodeURIComponent(url + '?p')`. -/
def startBody (url : String) : String :=
  "action=start&url=" ++ encodeURIComponent (url ++ "?p")

/-- Body `terminate` would send for a URL `u`:
`'action=stop&url=' + encodeURIComponent(u + '?p')`. -/
def stopBody (url : String) : String :=
  "action=stop&url=" ++ encodeURIComponent (url ++ "?p")

/-- Actions a promise executor can perform in this module: settle the
promise, or log to the console. -/
inductive ExecutorAction where
  | callResolve
  | callReject (name : String) (message : String)
  | consoleInfo (message : String)
deriving DecidableEq

/-- The executor of both `createDataChannel` promises: it only logs and
never invokes `resolve` or `reject`, and the resolvers do not escape the
executor, so nothing can ever settle the promise. -/
def dataChannelHangExecutor : List ExecutorAction :=
  [ExecutorAction.consoleInfo "no possible \"native\" data channel with Physical Web"]

/-- How a promise settles: the first `resolve`/`reject` call of its
executor wins; a promise whose executor never settles stays pending. -/
inductive Settlement where
  | pending
  | resolved
  | rejected (name : String) (message : String)
deriving DecidableEq

/-- Settlement reached by a promise whose executor performed the given
actions (and leaked no resolver). -/
def settlementOfExecutor : List ExecutorAction → Settlement
  | [] => Settlement.pending
  | ExecutorAction.callResolve :: _ => Settlement.resolved
  | ExecutorAction.callReject n m :: _ => Settlement.rejected n m
  | ExecutorAction.consoleInfo _ :: rest => settlementOfExecutor rest

/-- `PhysicalWebRemoteController`: carries no state beyond its hanging
`createDataChannel` executor. -/
structure PhysicalWebRemoteController where
  createDataChannelActions : List ExecutorAction
deriving DecidableEq

/-- `new PhysicalWebRemoteController()`. -/
def newPhysicalWebRemoteController : PhysicalWebRemoteController :=
  { createDataChannelActions := dataChannelHangExecutor }

/-- `PhysicalWebDisplay`: the constructor stores the display name (via
`Display.call(this, name)`) and a hanging `createDataChannel` executor.
It stores no URL: `navigate`'s `url` is a parameter local to `navigate`. -/
structure PhysicalWebDisplay where
  name : String
  createDataChannelActions : List ExecutorAction
deriving DecidableEq

/-- `new PhysicalWebDisplay(name)`. -/
def newPhysicalWebDisplay (name : String) : PhysicalWebDisplay :=
  { name := name, createDataChannelActions := dataChannelHangExecutor }

/-- Outcome of the XMLHttpRequest issued by `navigate`: either `onload`
fires (with some HTTP status, which the handler ignores) or `onerror`
fires with an event whose `JSON.stringify` serialization is given. -/
inductive NetworkOutcome where
  | load (status : Nat)
  | networkError (serialized : String)
deriving DecidableEq

/-- Requests issued by one call to `this.navigate = function (url) ...`:
exactly one POST of `startBody url` to the beacon endpoint. The request
text reads neither the display instance nor any page-global variable. -/
def navigateRequests (_d : PhysicalWebDisplay) (_pageGlobalUrl : Option String)
    (url : String) : List Request :=
  [{ method := "POST", url := beaconEndpoint,
     contentTypeHeader := formContentType, body := startBody url }]

/-- Display state after `navigate`: unchanged — in the source, `navigate`
assigns nothing to the display instance (in particular it does not retain
its `url` argument). -/
def navigateDisplayAfter (d : PhysicalWebDisplay) (_url : String) : PhysicalWebDisplay := d

/-- Settlement of the promise returned by `navigate`: `xhr.onload`
resolves it (without inspecting the status), `xhr.onerror` rejects it
with `new _DOMException('Unable to start Bluetooth beacon: ' +
JSON.stringify(e), 'OperationError')`. -/
def navigateSettlement : NetworkOutcome → Settlement
  | NetworkOutcome.load _ => Settlement.resolved
  | NetworkOutcome.networkError e =>
    Settlement.rejected "OperationError" ("Unable to start Bluetooth beacon: " ++ e)

/-- Requests issued by `this.terminate = function () ...`. Its body reads
an identifier `url` that is bound neither in `terminate`, nor in the
`PhysicalWebDisplay` constructor, nor in the surrounding IIFE
(`navigate`'s `url` parameter is local to `navigate`), so the lookup
falls through to the page's global scope, modelled by `pageGlobalUrl`.
In a page that defines no global `url` the lookup fails (a
`ReferenceError` is thrown before `xhr.send` runs) and no request goes
out. -/
def terminateRequests (_d : PhysicalWebDisplay) (pageGlobalUrl : Option String) :
    List Request :=
  match pageGlobalUrl with
  | none => []
  | some u =>
    [{ method := "POST", url := beaconEndpoint,
       contentTypeHeader := formContentType, body := stopBody u }]

/-- Mutable state of the mechanism instance: whether the framework has
assigned the `onincomingcontroller` callback. -/
structure MechanismState where
  hasIncomingControllerCallback : Bool
deriving DecidableEq

/-- Name of the one advertised display. -/
def physicalWebDisplayName : String :=
  "Broadcast the URL through a Physical Web beacon"

/-- Settlement of the promise returned by `getAvailableDisplays`. -/
inductive DisplaysSettlement where
  | pending
  | resolvedWith (displays : List PhysicalWebDisplay)
  | rejected (name : String) (message : String)
deriving DecidableEq

/-- `this.getAvailableDisplays = function () ...`: always resolves with a
fresh single-element list, whatever the mechanism state. -/
def getAvailableDisplays (_st : MechanismState) : DisplaysSettlement :=
  DisplaysSettlement.resolvedWith [newPhysicalWebDisplay physicalWebDisplayName]

/-- Does `pat` occur as a leading block of `l`? -/
def leadsList : List Char → List Char → Bool
  | [], _ => true
  | _ :: _, [] => false
  | p :: ps, c :: cs => p == c && leadsList ps cs

/-- Does `pat` occur anywhere in `l`? This is
`l.indexOf(pat) !== -1` for JavaScript strings. -/
def occursIn (pat : List Char) : List Char → Bool
  | [] => leadsList pat []
  | c :: rest => leadsList pat (c :: rest) || occursIn pat rest

/-- The receiving-context test of the source:
`window.location.search.indexOf('?p') !== -1`. -/
def searchHasPQMarker (search : String) : Bool :=
  occursIn "?p".data search.data

/-- Spec-side condition of claim C2, modelled from the spec: the search
string "contains the marker `p` as a query parameter name (i.e., ...
contains `?p` or `&p`)". -/
def specMarkerPQorAmpP (s : String) : Bool :=
  occursIn "?p".data s.data || occursIn "&p".data s.data

/-- `this.monitorIncomingControllers = function () ...`: when the page
search string contains `?p`, it constructs one
`PhysicalWebRemoteController` and, if the callback is set, invokes the
callback with it; otherwise it returns without doing anything. The
result lists the arguments of the callback invocations performed. -/
def monitorIncomingControllers (st : MechanismState) (search : String) :
    List PhysicalWebRemoteController :=
  if searchHasPQMarker search then
    (if st.hasIncomingControllerCallback then [newPhysicalWebRemoteController] else [])
  else []

/-- Operations an embedder can perform on the mechanism instance. -/
inductive MechOp where
  | setCallback (present : Bool)
  | getDisplays
  | monitor (search : String)
deriving DecidableEq

/-- State transition of the mechanism under one operation: only
assigning the callback changes state. -/
def mechStep (st : MechanismState) : MechOp → MechanismState
  | MechOp.setCallback b => { hasIncomingControllerCallback := b }
  | MechOp.getDisplays => st
  | MechOp.monitor _ => st

/-- Display lists advertised (resolved by `getAvailableDisplays`) along a
sequence of operations. -/
def advertisedLists (st : MechanismState) : List MechOp → List (List PhysicalWebDisplay)
  | [] => []
  | MechOp.getDisplays :: ops =>
    (match getAvailableDisplays st with
     | DisplaysSettlement.resolvedWith ds => [ds]
     | _ => []) ++ advertisedLists st ops
  | op :: ops => advertisedLists (mechStep st op) ops

/-! ## Helper lemmas: characters and bytes -/

/-- Rebuilding a string from its characters is the identity. -/
theorem stringMk_data (s : String) : String.mk s.data = s := rfl

/-- Every character's scalar value is below `0x110000`. -/
theorem char_toNat_lt (c : Char) : c.toNat < 1114112 := by
  have h : c.val.toNat < 55296 ∨ (57343 < c.val.toNat ∧ c.val.toNat < 1114112) := c.valid
  show c.val.toNat < 1114112
  omega

/-- `Char.ofNat` and `Char.toNat` cancel on small scalar values. -/
theorem char_toNat_ofNat (n : Nat) (h : n < 55296) : (Char.ofNat n).toNat = n := by
  rw [Char.ofNat, dif_pos (Or.inl h)]
  rfl

/-- An unreserved byte is an ASCII byte. -/
theorem isUnreservedByte_lt (b : Nat) (h : isUnreservedByte b = true) : b < 128 := by
  simp only [isUnreservedByte, Bool.or_eq_true, Bool.and_eq_true, decide_eq_true_eq,
    beq_iff_eq] at h
  omega

/-- The character kept for an unreserved byte round-trips through
`Char.toNat` and is none of `% & = +`. -/
theorem unreserved_char_props : ∀ b, b < 128 → isUnreservedByte b = true →
    (Char.ofNat b).toNat = b ∧ Char.ofNat b ≠ '%' ∧ Char.ofNat b ≠ '&' ∧
      Char.ofNat b ≠ '=' ∧ Char.ofNat b ≠ '+' := by decide

/-- Hex digits are decoded back to their value. -/
theorem hexVal_hexDigitChar : ∀ m, m < 16 → hexVal (hexDigitChar m) = some m := by decide

/-- Hex digit characters are none of `& = +`. -/
theorem hexDigitChar_not_special : ∀ m, m < 16 →
    hexDigitChar m ≠ '&' ∧ hexDigitChar m ≠ '=' ∧ hexDigitChar m ≠ '+' := by decide

/-! ## Helper lemmas: UTF-8 roundtrip -/

/-- `decodeOne` inverts `utf8EncodeChar` at the front of a byte list. -/
theorem decodeOne_enc (n : Nat) (hn : n < 1114112) (l : List Nat) :
    decodeOne (utf8EncodeChar n ++ l) = some (n, l) := by
  rw [utf8EncodeChar]
  by_cases h1 : n < 128
  · rw [if_pos h1]
    simp only [List.cons_append, List.nil_append, decodeOne]
    rw [if_pos h1]
  · rw [if_neg h1]
    by_cases h2 : n < 2048
    · rw [if_pos h2]
      simp only [List.cons_append, List.nil_append, decodeOne]
      rw [if_neg (by omega), if_neg (by omega), if_pos (by omega)]
      simp only [decodeOne.decodeCont1]
      rw [if_pos (by omega)]
      simp only [Option.some.injEq, Prod.mk.injEq]
      exact ⟨by omega, trivial⟩
    · rw [if_neg h2]
      by_cases h3 : n < 65536
      · rw [if_pos h3]
        simp only [List.cons_append, List.nil_append, decodeOne]
        rw [if_neg (by omega), if_neg (by omega), if_neg (by omega), if_pos (by omega)]
        simp only [decodeOne.decodeCont2]
        rw [if_pos (by omega)]
        simp only [Option.some.injEq, Prod.mk.injEq]
        exact ⟨by omega, trivial⟩
      · rw [if_neg h3]
        simp only [List.cons_append, List.nil_append, decodeOne]
        rw [if_neg (by omega), if_neg (by omega), if_neg (by omega), if_neg (by omega),
          if_pos (by omega)]
        simp only [decodeOne.decodeCont3]
        rw [if_pos (by omega)]
        simp only [Option.some.injEq, Prod.mk.injEq]
        exact ⟨by omega, trivial⟩

/-- A two-byte decode consumes at least one byte of the tail list. -/
theorem decodeCont1_length (b0 : Nat) (l : List Nat) (n : Nat) (r : List Nat)
    (h : decodeOne.decodeCont1 b0 l = some (n, r)) : r.length < l.length := by
  match l with
  | [] => simp [decodeOne.decodeCont1] at h
  | b1 :: r1 =>
    simp only [decodeOne.decodeCont1] at h
    by_cases hc : 128 ≤ b1 ∧ b1 < 192
    · rw [if_pos hc] at h
      have hr : r1 = r := congrArg Prod.snd (Option.some.inj h)
      subst hr
      simp
    · rw [if_neg hc] at h
      exact absurd h (by simp)

/-- A three-byte decode consumes at least two bytes of the tail list. -/
theorem decodeCont2_length (b0 : Nat) (l : List Nat) (n : Nat) (r : List Nat)
    (h : decodeOne.decodeCont2 b0 l = some (n, r)) : r.length < l.length := by
  match l with
  | [] => simp [decodeOne.decodeCont2] at h
  | [b1] => simp [decodeOne.decodeCont2] at h
  | b1 :: b2 :: r2 =>
    simp only [decodeOne.decodeCont2] at h
    by_cases hc : (128 ≤ b1 ∧ b1 < 192) ∧ (128 ≤ b2 ∧ b2 < 192)
    · rw [if_pos hc] at h
      have hr : r2 = r := congrArg Prod.snd (Option.some.inj h)
      subst hr
      simp
      omega
    · rw [if_neg hc] at h
      exact absurd h (by simp)

/-- A four-byte decode consumes at least three bytes of the tail list. -/
theorem decodeCont3_length (b0 : Nat) (l : List Nat) (n : Nat) (r : List Nat)
    (h : decodeOne.decodeCont3 b0 l = some (n, r)) : r.length < l.length := by
  match l with
  | [] => simp [decodeOne.decodeCont3] at h
  | [b1] => simp [decodeOne.decodeCont3] at h
  | [b1, b2] => simp [decodeOne.decodeCont3] at h
  | b1 :: b2 :: b3 :: r3 =>
    simp only [decodeOne.decodeCont3] at h
    by_cases hc : (128 ≤ b1 ∧ b1 < 192) ∧ (128 ≤ b2 ∧ b2 < 192) ∧ (128 ≤ b3 ∧ b3 < 192)
    · rw [if_pos hc] at h
      have hr : r3 = r := congrArg Prod.snd (Option.some.inj h)
      subst hr
      simp
      omega
    · rw [if_neg hc] at h
      exact absurd h (by simp)

/-- `decodeOne` consumes at least one byte. -/
theorem decodeOne_length (l : List Nat) (n : Nat) (r : List Nat)
    (h : decodeOne l = some (n, r)) : r.length < l.length := by
  match l with
  | [] => simp [decodeOne] at h
  | b0 :: rest =>
    simp only [decodeOne] at h
    split_ifs at h with h1 h2 h3 h4 h5
    · have hr : rest = r := congrArg Prod.snd (Option.some.inj h)
      subst hr
      simp
    · have hlt := decodeCont1_length b0 rest n r h
      simp only [List.length_cons]
      omega
    · have hlt := decodeCont2_length b0 rest n r h
      simp only [List.length_cons]
      omega
    · have hlt := decodeCont3_length b0 rest n r h
      simp only [List.length_cons]
      omega

/-- Any sufficient fuel computes the same UTF-8 decoding. -/
theorem utf8DecodeFuel_eq (f1 : Nat) : ∀ (f2 : Nat) (l : List Nat),
    l.length ≤ f1 → l.length ≤ f2 → utf8DecodeFuel f1 l = utf8DecodeFuel f2 l := by
  induction f1 with
  | zero =>
    intro f2 l h1 h2
    match l with
    | [] => cases f2 <;> rfl
    | b :: rest => simp at h1
  | succ f1 ih =>
    intro f2 l h1 h2
    match l with
    | [] => cases f2 <;> rfl
    | b :: rest =>
      match f2 with
      | 0 => simp at h2
      | f2 + 1 =>
        simp only [utf8DecodeFuel]
        cases hd : decodeOne (b :: rest) with
        | none => rfl
        | some p =>
          obtain ⟨n, r⟩ := p
          have hlen := decodeOne_length _ _ _ hd
          simp only [List.length_cons] at hlen h1 h2
          dsimp only
          rw [ih f2 r (by omega) (by omega)]

/-- UTF-8 decoding peels off an encoded character at the front. -/
theorem utf8DecodeBytes_enc_append (n : Nat) (hn : n < 1114112) (l : List Nat) :
    utf8DecodeBytes (utf8EncodeChar n ++ l) =
      (utf8DecodeBytes l).map (fun cs => Char.ofNat n :: cs) := by
  have hdec := decodeOne_enc n hn l
  have hlen1 : 1 ≤ (utf8EncodeChar n).length := by
    rw [utf8EncodeChar]
    split_ifs <;> simp
  cases hE : utf8EncodeChar n ++ l with
  | nil =>
    rw [hE] at hdec
    simp [decodeOne] at hdec
  | cons b rest =>
    have hlen2 : (utf8EncodeChar n).length + l.length = rest.length + 1 := by
      have hc := congrArg List.length hE
      simpa using hc
    rw [hE] at hdec
    simp only [utf8DecodeBytes, hE, List.length_cons]
    simp only [utf8DecodeFuel, hdec]
    rw [utf8DecodeFuel_eq rest.length l.length l (by omega) (Nat.le_refl _)]

/-- UTF-8 decoding inverts UTF-8 encoding. -/
theorem utf8_roundtrip (cs : List Char) : utf8DecodeBytes (utf8Bytes cs) = some cs := by
  induction cs with
  | nil => rfl
  | cons c rest ih =>
    simp only [utf8Bytes]
    rw [utf8DecodeBytes_enc_append c.toNat (char_toNat_lt c), ih]
    simp [Char.ofNat_toNat]

/-- A successful `readHexPair` consumes two characters. -/
theorem readHexPair_length (l : List Char) (b : Nat) (r : List Char)
    (h : readHexPair l = some (b, r)) : r.length + 2 = l.length := by
  match l with
  | [] => simp [readHexPair] at h
  | [c] => simp [readHexPair] at h
  | c1 :: c2 :: rest =>
    simp only [readHexPair] at h
    cases h1 : hexVal c1 with
    | none => rw [h1] at h; exact absurd h (by simp)
    | some hv =>
      cases h2 : hexVal c2 with
      | none => rw [h1, h2] at h; exact absurd h (by simp)
      | some lv =>
        rw [h1, h2] at h
        have hr : rest = r := congrArg Prod.snd (Option.some.inj h)
        subst hr
        simp

/-- Any sufficient fuel computes the same percent-decoding. -/
theorem percentDecodeFuel_eq (f1 : Nat) : ∀ (f2 : Nat) (l : List Char),
    l.length ≤ f1 → l.length ≤ f2 → percentDecodeFuel f1 l = percentDecodeFuel f2 l := by
  induction f1 with
  | zero =>
    intro f2 l h1 h2
    match l with
    | [] => cases f2 <;> rfl
    | c :: rest => simp at h1
  | succ f1 ih =>
    intro f2 l h1 h2
    match l with
    | [] => cases f2 <;> rfl
    | c :: rest =>
      match f2 with
      | 0 => simp at h2
      | f2 + 1 =>
        simp only [List.length_cons] at h1 h2
        simp only [percentDecodeFuel]
        by_cases hc : c = '%'
        · rw [if_pos hc, if_pos hc]
          cases hr : readHexPair rest with
          | none => rfl
          | some p =>
            obtain ⟨b, rest2⟩ := p
            have hlen := readHexPair_length rest b rest2 hr
            dsimp only
            rw [ih f2 rest2 (by omega) (by omega)]
        · rw [if_neg hc, if_neg hc]
          rw [ih f2 rest (by omega) (by omega)]

/-- Percent-decoding peels off an encoded byte at the front. -/
theorem percentDecodeBytes_encByte (b : Nat) (hb : b < 256) (l : List Char) :
    percentDecodeBytes (encByte b ++ l) =
      (percentDecodeBytes l).map (fun bs => b :: bs) := by
  by_cases hu : isUnreservedByte b
  · have h128 : b < 128 := isUnreservedByte_lt b hu
    obtain ⟨htn, hpc, -, -, -⟩ := unreserved_char_props b h128 hu
    rw [encByte, if_pos hu]
    simp only [List.singleton_append, percentDecodeBytes, List.length_cons]
    rw [percentDecodeFuel, if_neg hpc]
    have he : utf8EncodeChar (Char.ofNat b).toNat = [b] := by
      rw [htn, utf8EncodeChar, if_pos h128]
    simp only [he, List.singleton_append]
  · rw [encByte, if_neg hu]
    simp only [List.cons_append, List.nil_append, percentDecodeBytes, List.length_cons]
    rw [percentDecodeFuel, if_pos rfl]
    have hhex : readHexPair (hexDigitChar (b / 16) :: hexDigitChar (b % 16) :: l)
        = some (b, l) := by
      simp only [readHexPair, hexVal_hexDigitChar (b / 16) (by omega),
        hexVal_hexDigitChar (b % 16) (by omega)]
      have hb16 : 16 * (b / 16) + b % 16 = b := by omega
      rw [hb16]
    simp only [hhex]
    rw [percentDecodeFuel_eq (l.length + 2) l.length l (by omega) (Nat.le_refl _)]

/-- Percent-decoding inverts byte-wise percent encoding. -/
theorem percentDecodeBytes_encodeBytes (bs : List Nat) (h : ∀ b ∈ bs, b < 256) :
    percentDecodeBytes (encodeBytes bs) = some bs := by
  induction bs with
  | nil => rfl
  | cons b rest ih =>
    simp only [encodeBytes]
    rw [percentDecodeBytes_encByte b (h b (List.mem_cons_self b rest)),
      ih (fun x hx => h x (List.mem_cons_of_mem b hx))]
    rfl

/-- All bytes of a UTF-8 encoded scalar value fit in a byte. -/
theorem utf8EncodeChar_lt_256 (n : Nat) (hn : n < 1114112) :
    ∀ b ∈ utf8EncodeChar n, b < 256 := by
  intro b hb
  rw [utf8EncodeChar] at hb
  split_ifs at hb <;> simp at hb <;> omega

/-- All bytes of a UTF-8 encoded string fit in a byte. -/
theorem utf8Bytes_lt_256 (cs : List Char) : ∀ b ∈ utf8Bytes cs, b < 256 := by
  induction cs with
  | nil =>
    intro b hb
    simp [utf8Bytes] at hb
  | cons c rest ih =>
    intro b hb
    simp only [utf8Bytes, List.mem_append] at hb
    rcases hb with hb | hb
    · exact utf8EncodeChar_lt_256 c.toNat (char_toNat_lt c) b hb
    · exact ih b hb

/-- Characters of an `encodeURIComponent` output are never `& = +`. -/
theorem encodeBytes_chars (bs : List Nat) (h : ∀ b ∈ bs, b < 256) :
    ∀ c ∈ encodeBytes bs, c ≠ '&' ∧ c ≠ '=' ∧ c ≠ '+' := by
  induction bs with
  | nil =>
    intro c hc
    simp [encodeBytes] at hc
  | cons b rest ih =>
    intro c hc
    simp only [encodeBytes, List.mem_append] at hc
    rcases hc with hc | hc
    · by_cases hu : isUnreservedByte b
      · rw [encByte, if_pos hu] at hc
        simp only [List.mem_singleton] at hc
        subst hc
        exact (unreserved_char_props b (isUnreservedByte_lt b hu) hu).2.2
      · rw [encByte, if_neg hu] at hc
        have hb := h b (List.mem_cons_self b rest)
        simp only [List.mem_cons, List.not_mem_nil, or_false] at hc
        rcases hc with rfl | rfl | rfl
        · exact ⟨by decide, by decide, by decide⟩
        · exact hexDigitChar_not_special (b / 16) (by omega)
        · exact hexDigitChar_not_special (b % 16) (by omega)
    · exact ih (fun x hx => h x (List.mem_cons_of_mem b hx)) c hc

/-- Percent-decoding inverts `encodeURIComponent`. -/
theorem percentDecode_encodeURIComponent (s : String) :
    percentDecode (encodeURIComponent s) = some s := by
  have h1 : percentDecodeBytes (encodeURIComponent s).data = some (utf8Bytes s.data) :=
    percentDecodeBytes_encodeBytes (utf8Bytes s.data) (utf8Bytes_lt_256 s.data)
  have h2 : utf8DecodeBytes (utf8Bytes s.data) = some s.data := utf8_roundtrip s.data
  simp only [percentDecode, h1, h2]

/-- Mapping `+` to space fixes a string without `+`. -/
theorem map_plusToSpace_eq (l : List Char) (h : ∀ c ∈ l, c ≠ '+') :
    l.map plusToSpace = l := by
  induction l with
  | nil => rfl
  | cons c rest ih =>
    simp only [List.map_cons, List.cons.injEq]
    refine ⟨?_, ih (fun x hx => h x (List.mem_cons_of_mem c hx))⟩
    rw [plusToSpace, if_neg (h c (List.mem_cons_self c rest))]

/-- Form-value decoding inverts `encodeURIComponent`. -/
theorem formValueDecode_encodeURIComponent (s : String) :
    formValueDecode (encodeURIComponent s) = some s := by
  have hmap : (encodeURIComponent s).data.map plusToSpace = (encodeURIComponent s).data :=
    map_plusToSpace_eq (encodeURIComponent s).data
      (fun c hc =>
        (encodeBytes_chars (utf8Bytes s.data) (utf8Bytes_lt_256 s.data) c hc).2.2)
  simp only [formValueDecode, hmap, stringMk_data]
  exact percentDecode_encodeURIComponent s

/-- A chunk without `&` is not split. -/
theorem splitAmp_no_amp (l : List Char) (h : '&' ∉ l) : splitAmp l = [l] := by
  induction l with
  | nil => rfl
  | cons c rest ih =>
    rw [List.mem_cons] at h
    push_neg at h
    obtain ⟨h1, h2⟩ := h
    simp only [splitAmp]
    rw [if_neg (fun he => h1 he.symm), ih h2]

/-- Splitting at the first `&` after an `&`-free block. -/
theorem splitAmp_append (l1 l2 : List Char) (h : '&' ∉ l1) :
    splitAmp (l1 ++ '&' :: l2) = l1 :: splitAmp l2 := by
  induction l1 with
  | nil =>
    rw [List.nil_append, splitAmp, if_pos rfl]
  | cons c rest ih =>
    rw [List.mem_cons] at h
    push_neg at h
    obtain ⟨h1, h2⟩ := h
    rw [List.cons_append, splitAmp, if_neg (fun he => h1 he.symm), ih h2]

/-- Splitting at the first `=` after an `=`-free key. -/
theorem splitFirstEq_append (k v : List Char) (h : '=' ∉ k) :
    splitFirstEq (k ++ '=' :: v) = some (k, v) := by
  induction k with
  | nil =>
    rw [List.nil_append, splitFirstEq, if_pos rfl]
  | cons c rest ih =>
    rw [List.mem_cons] at h
    push_neg at h
    obtain ⟨h1, h2⟩ := h
    rw [List.cons_append, splitFirstEq, if_neg (fun he => h1 he.symm), ih h2]

/-- The `navigate` body decodes to the `start` action paired with the
broadcast URL `u ++ "?p"`. -/
theorem formDecode_startBody (u : String) :
    formDecode (startBody u) = some [("action", "start"), ("url", u ++ "?p")] := by
  have hbytes := utf8Bytes_lt_256 (u ++ "?p").data
  have hEchars : ∀ c ∈ (encodeURIComponent (u ++ "?p")).data,
      c ≠ '&' ∧ c ≠ '=' ∧ c ≠ '+' :=
    fun c hc => encodeBytes_chars (utf8Bytes (u ++ "?p").data) hbytes c hc
  have hdata : (startBody u).data
      = "action=start".data ++ '&' ::
          ("url".data ++ '=' :: (encodeURIComponent (u ++ "?p")).data) := by
    show ("action=start&url=" ++ encodeURIComponent (u ++ "?p")).data = _
    rw [String.data_append]
    have hlit : "action=start&url=".data
        = "action=start".data ++ '&' :: ("url".data ++ ['=']) := by decide
    rw [hlit]
    simp [List.append_assoc]
  have hsplit : splitAmp (startBody u).data
      = ["action=start".data, "url".data ++ '=' :: (encodeURIComponent (u ++ "?p")).data] := by
    rw [hdata, splitAmp_append _ _ (by decide)]
    rw [splitAmp_no_amp]
    intro hmem
    rw [List.mem_append] at hmem
    rcases hmem with hmem | hmem
    · revert hmem
      decide
    · rw [List.mem_cons] at hmem
      rcases hmem with hmem | hmem
      · exact absurd hmem (by decide)
      · exact (hEchars '&' hmem).1 rfl
  have hpair1 : parsePair "action=start".data = some ("action", "start") := by decide
  have hkey : formValueDecode "url" = some "url" := by decide
  have hval := formValueDecode_encodeURIComponent (u ++ "?p")
  have hpair2 : parsePair ("url".data ++ '=' :: (encodeURIComponent (u ++ "?p")).data)
      = some ("url", u ++ "?p") := by
    rw [parsePair, splitFirstEq_append _ _ (by decide)]
    simp only [stringMk_data, hkey, hval]
  rw [formDecode, hsplit]
  simp only [parsePairs, hpair1, hpair2]

/-! ## Claim theorems -/

/-- C1: the claim says `terminate()` after a prior `navigate(u)` issues
exactly one POST whose body decodes to `action=stop` and `url = u ++ "?p"`.
The code cannot do this: `navigate` stores nothing on the display
instance, and the `url` read by `terminate` is unbound in every enclosing
scope, so in a page without a global `url` the call throws before
`xhr.send` and no request at all is issued. This theorem evaluates the
embedded code at that failing configuration. -/
theorem terminate_after_navigate_sends_no_stop (d : PhysicalWebDisplay) (u : String) :
    navigateDisplayAfter d u = d
    ∧ terminateRequests (navigateDisplayAfter d u) none = []
    ∧ (terminateRequests (navigateDisplayAfter d u) none).length = 0 :=
  ⟨rfl, rfl, rfl⟩

/-- C2 counterexample: the search string `?x=1&p` contains the marker in
the claimed sense (it contains `&p`), yet `monitorIncomingControllers`
invokes the callback zero times even though the callback is set. -/
theorem monitor_marker_counterexample :
    specMarkerPQorAmpP "?x=1&p" = true
    ∧ monitorIncomingControllers { hasIncomingControllerCallback := true } "?x=1&p" = [] := by
  decide

/-- C2 (amended): `monitorIncomingControllers` invokes the registered
callback, with a freshly constructed remote-controller stub, exactly once
if and only if the callback is set and the search string contains `?p` as
a plain substring (a `&p` occurrence alone is not detected); in
particular once for `?p` and zero times for `?x=1`; otherwise it does
nothing. -/
theorem monitor_calls_iff_contains_pq (st : MechanismState) (s : String) :
    monitorIncomingControllers st s
      = (if st.hasIncomingControllerCallback && searchHasPQMarker s
         then [newPhysicalWebRemoteController] else [])
    ∧ (monitorIncomingControllers { hasIncomingControllerCallback := true } "?p").length = 1
    ∧ (monitorIncomingControllers { hasIncomingControllerCallback := true } "?x=1").length = 0 := by
  refine ⟨?_, by decide, by decide⟩
  rw [monitorIncomingControllers]
  cases hm : searchHasPQMarker s <;>
    cases hc : st.hasIncomingControllerCallback <;>
      simp [hm, hc]

/-- C3: `navigate(u)` issues exactly one outbound POST to the beacon
endpoint with the `application/x-www-form-urlencoded` content type, whose
body decodes to `action=start` and `url = u ++ "?p"`. -/
theorem navigate_sends_one_start_request (d : PhysicalWebDisplay)
    (g : Option String) (u : String) :
    navigateRequests d g u
      = [{ method := "POST", url := beaconEndpoint,
           contentTypeHeader := formContentType, body := startBody u }]
    ∧ (navigateRequests d g u).length = 1
    ∧ formDecode (startBody u) = some [("action", "start"), ("url", u ++ "?p")] :=
  ⟨rfl, rfl, formDecode_startBody u⟩

/-- C4: `createDataChannel()` on the remote-controller stub and on any
display returns a promise that never settles: its executor performs no
`resolve` or `reject` call (and leaks no resolver), so its settlement is
permanently pending. -/
theorem createDataChannel_never_settles :
    settlementOfExecutor newPhysicalWebRemoteController.createDataChannelActions
      = Settlement.pending
    ∧ ∀ name : String,
        settlementOfExecutor (newPhysicalWebDisplay name).createDataChannelActions
          = Settlement.pending :=
  ⟨rfl, fun _ => rfl⟩

/-- C5: the `navigate` promise rejects exactly on a network-level error;
every rejection carries the kind `OperationError` and a message ending in
the serialized failure; and no other promise of the module (the data
channels, `getAvailableDisplays`) ever rejects. -/
theorem navigate_rejects_iff_network_error :
    (∀ o : NetworkOutcome,
        (∃ n m, navigateSettlement o = Settlement.rejected n m)
          ↔ ∃ e, o = NetworkOutcome.networkError e)
    ∧ (∀ e, navigateSettlement (NetworkOutcome.networkError e)
        = Settlement.rejected "OperationError" ("Unable to start Bluetooth beacon: " ++ e))
    ∧ (∀ o n m, navigateSettlement o = Settlement.rejected n m →
        n = "OperationError" ∧ ∃ e pre, o = NetworkOutcome.networkError e ∧ m = pre ++ e)
    ∧ (∀ n m, settlementOfExecutor dataChannelHangExecutor ≠ Settlement.rejected n m)
    ∧ (∀ st n m, getAvailableDisplays st ≠ DisplaysSettlement.rejected n m) := by
  refine ⟨?_, fun e => rfl, ?_, ?_, ?_⟩
  · intro o
    constructor
    · rintro ⟨n, m, hnm⟩
      cases o with
      | load s => simp [navigateSettlement] at hnm
      | networkError e => exact ⟨e, rfl⟩
    · rintro ⟨e, he⟩
      subst he
      exact ⟨_, _, rfl⟩
  · intro o n m h
    cases o with
    | load s => simp [navigateSettlement] at h
    | networkError e =>
      simp only [navigateSettlement, Settlement.rejected.injEq] at h
      obtain ⟨hn, hm⟩ := h
      exact ⟨hn.symm, e, "Unable to start Bluetooth beacon: ", rfl, hm.symm⟩
  · intro n m h
    exact Settlement.noConfusion h
  · intro st n m h
    exact DisplaysSettlement.noConfusion h

/-- C5 witness: a concrete network error is rejected with the
`OperationError` kind and a message containing the serialized failure. -/
theorem navigate_rejects_iff_network_error_witness :
    navigateSettlement (NetworkOutcome.networkError "failure")
      = Settlement.rejected "OperationError" ("Unable to start Bluetooth beacon: " ++ "failure")
    ∧ ("OperationError" : String) = "OperationError"
    ∧ ∃ e pre, NetworkOutcome.networkError "failure" = NetworkOutcome.networkError e
        ∧ ("Unable to start Bluetooth beacon: " ++ "failure") = pre ++ e := by
  have h1 := navigate_rejects_iff_network_error.2.1 "failure"
  have h2 := navigate_rejects_iff_network_error.2.2.1
    (NetworkOutcome.networkError "failure") "OperationError"
    ("Unable to start Bluetooth beacon: " ++ "failure") h1
  exact ⟨h1, h2.1, h2.2⟩

/-- C6: whenever the request completes with a `load` event — for any HTTP
status, which the handler never inspects — the `navigate` promise
resolves with no value. -/
theorem navigate_resolves_on_load (s1 s2 : Nat) :
    navigateSettlement (NetworkOutcome.load s1) = Settlement.resolved
    ∧ navigateSettlement (NetworkOutcome.load s1)
        = navigateSettlement (NetworkOutcome.load s2) :=
  ⟨rfl, rfl⟩

/-- C7: `getAvailableDisplays()` always resolves, whatever the mechanism
state, with exactly one freshly constructed display whose name is the
fixed non-empty string chosen at construction. -/
theorem getAvailableDisplays_single_display (st : MechanismState) :
    getAvailableDisplays st
      = DisplaysSettlement.resolvedWith [newPhysicalWebDisplay physicalWebDisplayName]
    ∧ [newPhysicalWebDisplay physicalWebDisplayName].length = 1
    ∧ (newPhysicalWebDisplay physicalWebDisplayName).name = physicalWebDisplayName
    ∧ 0 < physicalWebDisplayName.length :=
  ⟨rfl, rfl, rfl, by decide⟩

/-- C8: across every sequence of operations on the mechanism, every
advertised display list is the same fixed single-element list. -/
theorem advertised_displays_fixed_singleton (st : MechanismState) (ops : List MechOp)
    (l : List PhysicalWebDisplay) (h : l ∈ advertisedLists st ops) :
    l = [newPhysicalWebDisplay physicalWebDisplayName] ∧ l.length = 1 := by
  induction ops generalizing st with
  | nil => simp [advertisedLists] at h
  | cons op rest ih =>
    cases op with
    | setCallback b =>
      simp only [advertisedLists] at h
      exact ih _ h
    | getDisplays =>
      simp only [advertisedLists, getAvailableDisplays, List.singleton_append,
        List.mem_cons] at h
      rcases h with rfl | h
      · exact ⟨rfl, rfl⟩
      · exact ih _ h
    | monitor s =>
      simp only [advertisedLists] at h
      exact ih _ h

/-- C8 witness: along the one-operation sequence that queries the display
list, the advertised list is the fixed singleton. -/
theorem advertised_displays_fixed_singleton_witness :
    [newPhysicalWebDisplay physicalWebDisplayName]
        = [newPhysicalWebDisplay physicalWebDisplayName]
    ∧ ([newPhysicalWebDisplay physicalWebDisplayName] : List PhysicalWebDisplay).length = 1 :=
  advertised_displays_fixed_singleton { hasIncomingControllerCallback := false }
    [MechOp.getDisplays] [newPhysicalWebDisplay physicalWebDisplayName] (by decide)

/-- C9: the receiving-context detection is a plain substring test for
`?p`, so every search string beginning with `?p` — such as `?page=2` or
`?photo=1` — takes the receiving-context path and invokes the callback
when it is set, even though no bare `p` query flag is present. -/
theorem monitor_substring_false_positive (st : MechanismState) (rest : String) :
    monitorIncomingControllers st ("?p" ++ rest)
      = (if st.hasIncomingControllerCallback then [newPhysicalWebRemoteController] else [])
    ∧ (monitorIncomingControllers { hasIncomingControllerCallback := true } "?page=2").length = 1
    ∧ (monitorIncomingControllers { hasIncomingControllerCallback := true } "?photo=1").length = 1 := by
  refine ⟨?_, by decide, by decide⟩
  have hdat : ("?p" ++ rest).data = '?' :: 'p' :: rest.data := by
    rw [String.data_append]
    have hptn : "?p".data = ['?', 'p'] := by decide
    rw [hptn]
    rfl
  have hm : searchHasPQMarker ("?p" ++ rest) = true := by
    rw [searchHasPQMarker, hdat]
    have hptn : "?p".data = ['?', 'p'] := by decide
    rw [hptn]
    simp [occursIn, leadsList]
  rw [monitorIncomingControllers, hm, if_pos rfl]

/-- C10: the request issued by `navigate` is a function of its `url`
argument alone: it reads neither the display instance nor the page's
global scope, so two calls with the same URL issue identical requests
(same method, endpoint, content type and body). -/
theorem navigate_request_deterministic (d1 d2 : PhysicalWebDisplay)
    (g1 g2 : Option String) (u1 u2 : String) (h : u1 = u2) :
    navigateRequests d1 g1 u1 = navigateRequests d2 g2 u2 := by
  subst h
  rfl

/-- C10 witness: two calls on different display instances and page
environments with the same URL issue the same request. -/
theorem navigate_request_deterministic_witness :
    navigateRequests (newPhysicalWebDisplay "a") none "http://example.org/deck"
      = navigateRequests (newPhysicalWebDisplay "b") (some "other") "http://example.org/deck" :=
  navigate_request_deterministic _ _ _ _ _ _ rfl
